import Mathlib

/-!
Shallow embedding of the arithmetic expression evaluator of
`src/main.go` (functions `evalExpr`, `tokenize`, `rewriteUnaryMinus`,
`prec`, `shuntingYard`, `evalRPN`).

Modelling choices:
* Go's `float64` values are modelled as exact rationals (`ℚ`).  Every
  numeric literal and operation appearing in the verified claims is
  exactly representable in `float64`, and the source's division-by-zero
  test (`b == 0`) is an exact comparison, so the rational model agrees
  with the source on all inputs considered here.  The source's final
  `math.IsInf`/`math.IsNaN` check cannot fire in the exact-rational
  model and is represented by the (unreachable) `EvalErr.badResult`
  constructor.
* Go errors are plain strings created with `errors.New`/`fmt.Errorf`.
  `EvalErr` has one constructor per distinct error string occurring in
  the source; two `return` sites that build the same string are mapped
  to the same constructor, because callers receive only the string.
* `strconv.ParseFloat` is modelled by `parseNum`, restricted to the
  alphabet reachable from the tokenizer (digits and dots): it succeeds
  iff the text consists of digits and at most one dot and contains at
  least one digit.  (Exponent/sign syntax and `float64` range overflow
  are not reachable from, or not relevant to, the claims.)
-/

deriving instance DecidableEq for Except

namespace GoCalc

/-- Token kinds, from `type tokType int` of the source
(`tNumber`, `tOp`, `tLParen`, `tRParen`). -/
inductive TokType where
  | tNumber
  | tOp
  | tLParen
  | tRParen
deriving DecidableEq

/-- `type token struct { typ tokType; val string }` of the source. -/
structure Token where
  typ : TokType
  val : String
deriving DecidableEq

/-- One constructor per distinct error string of the source:
`"empty expression"`, `"bad char: %q"`, `"mismatched parentheses"`,
`"bad number"`, `"bad expression"` (returned by BOTH the
operator-needs-two-operands site and the residual-stack site of
`evalRPN`), `"division by zero"`, `"bad result"`. -/
inductive EvalErr where
  | emptyExpression
  | badChar (c : Char)
  | mismatchedParens
  | badNumber
  | badExpression
  | divisionByZero
  | badResult
deriving DecidableEq

/-- The character class consumed greedily into a `Number` token
(`(c >= '0' && c <= '9') || c == '.'` in the source). -/
def isNumChar (c : Char) : Bool := c.isDigit || c == '.'

/-- Auxiliary: `dropWhile` never lengthens a list (used for the
termination of the scanning loop). -/
theorem dropWhile_len_le (p : Char → Bool) :
    ∀ l : List Char, (l.dropWhile p).length ≤ l.length := by
  intro l
  induction l with
  | nil => simp [List.dropWhile]
  | cons c rest ih =>
    by_cases h : p c
    · simp only [List.dropWhile_cons, h, if_true]
      exact Nat.le_succ_of_le ih
    · simp [List.dropWhile_cons, h]

/-- The scanning loop of `tokenize` (the `for i < len(s)` loop):
one pass, greedy number runs, single-character operators and parens,
any other character fails with `bad char`.  The extra `Nat` argument
is structural-recursion fuel; each loop step consumes at least one
character, so fuel equal to the list length (as supplied by
`scanTokens`, see `scanTokensF_fuel_irrel`) never runs out and the
`0`-fuel case is unreachable. -/
def scanTokensF : Nat → List Char → Except EvalErr (List Token)
  | _, [] => .ok []
  | 0, _ :: _ => .ok []
  | fuel + 1, c :: rest =>
    if isNumChar c then
      match scanTokensF fuel (rest.dropWhile isNumChar) with
      | .error e => .error e
      | .ok ts => .ok (⟨.tNumber, String.mk (c :: rest.takeWhile isNumChar)⟩ :: ts)
    else if c == '+' || c == '-' || c == '*' || c == '/' then
      match scanTokensF fuel rest with
      | .error e => .error e
      | .ok ts => .ok (⟨.tOp, String.mk [c]⟩ :: ts)
    else if c == '(' then
      match scanTokensF fuel rest with
      | .error e => .error e
      | .ok ts => .ok (⟨.tLParen, "("⟩ :: ts)
    else if c == ')' then
      match scanTokensF fuel rest with
      | .error e => .error e
      | .ok ts => .ok (⟨.tRParen, ")"⟩ :: ts)
    else .error (.badChar c)

/-- The scanning loop, with enough fuel for the whole input. -/
def scanTokens (l : List Char) : Except EvalErr (List Token) :=
  scanTokensF l.length l

/-- Any fuel at least the list length gives the same scan result, so
the fuel in `scanTokens` is an artifact of the embedding, not of the
modelled loop. -/
theorem scanTokensF_fuel_irrel (fuel : Nat) (l : List Char)
    (h : l.length ≤ fuel) : scanTokensF fuel l = scanTokensF l.length l := by
  match fuel, l with
  | f, [] => simp only [scanTokensF]
  | 0, c :: rest => simp at h
  | fuel + 1, c :: rest =>
    have h' : rest.length ≤ fuel := by simpa using h
    have hdrop : (rest.dropWhile isNumChar).length ≤ rest.length :=
      dropWhile_len_le isNumChar rest
    have e1 := scanTokensF_fuel_irrel fuel (rest.dropWhile isNumChar)
      (le_trans hdrop h')
    have e2 := scanTokensF_fuel_irrel rest.length (rest.dropWhile isNumChar) hdrop
    have e3 := scanTokensF_fuel_irrel fuel rest h'
    show scanTokensF (fuel + 1) (c :: rest) = scanTokensF (rest.length + 1) (c :: rest)
    simp only [scanTokensF, e1, e2, e3]
termination_by l.length

/-- Unary context test of `rewriteUnaryMinus`: the `-` is the first
token overall (`i == 0`) or the previous ORIGINAL token is an operator
or a left paren (`toks[i-1].typ == tOp || toks[i-1].typ == tLParen`). -/
def isUnaryCtx : Option Token → Bool
  | none => true
  | some p => p.typ == .tOp || p.typ == .tLParen

/-- The loop body of `rewriteUnaryMinus`; `prev` carries `toks[i-1]`
(the previous token of the INPUT list, `none` at `i = 0`). -/
def rewriteGo : Option Token → List Token → List Token
  | _, [] => []
  | prev, t :: rest =>
    if t.typ = .tOp ∧ t.val = "-" ∧ isUnaryCtx prev = true then
      ⟨.tNumber, "0"⟩ :: t :: rewriteGo (some t) rest
    else
      t :: rewriteGo (some t) rest

/-- `func rewriteUnaryMinus(toks []token) []token` of the source. -/
def rewriteUnaryMinus (toks : List Token) : List Token :=
  rewriteGo none toks

/-- `func tokenize(s string) ([]token, error)` of the source:
`strings.ReplaceAll(s, " ", "")`, empty check, scanning loop, then the
unary-minus rewrite. -/
def tokenize (s : String) : Except EvalErr (List Token) :=
  let stripped := s.data.filter (fun c => c != ' ')
  if stripped.isEmpty then .error .emptyExpression
  else
    match scanTokens stripped with
    | .error e => .error e
    | .ok toks => .ok (rewriteUnaryMinus toks)

/-- `func prec(op string) int` of the source. -/
def prec (op : String) : Nat :=
  match op with
  | "+" | "-" => 1
  | "*" | "/" => 2
  | _ => 0

/-- The inner pop loop of `shuntingYard`'s `tOp` case: pop to output
while the stack is non-empty and its top is an operator with precedence
`≥` the incoming operator's.  Returns `(popped in pop order, remaining
stack)`; the stack's top is the list head. -/
def popWhileGE (t : Token) : List Token → List Token × List Token
  | [] => ([], [])
  | top :: rest =>
    if top.typ = .tOp ∧ prec top.val ≥ prec t.val then
      (top :: (popWhileGE t rest).1, (popWhileGE t rest).2)
    else ([], top :: rest)

/-- The pop loop of `shuntingYard`'s `tRParen` case: pop until an
`LParen` is found (discarded); `none` when the stack empties first.
Returns `(popped non-paren entries in pop order, remaining stack)`. -/
def popUntilLParen : List Token → Option (List Token × List Token)
  | [] => none
  | top :: rest =>
    if top.typ = .tLParen then some ([], rest)
    else
      match popUntilLParen rest with
      | none => none
      | some (popped, stack) => some (top :: popped, stack)

/-- The final drain loop of `shuntingYard`: pop every remaining stack
entry to the output; `none` (mismatched parentheses) when a popped
entry is itself a paren marker. -/
def drainStack : List Token → Option (List Token)
  | [] => some []
  | top :: rest =>
    if top.typ = .tLParen ∨ top.typ = .tRParen then none
    else (drainStack rest).map (top :: ·)

/-- The main loop of `func shuntingYard(toks []token) ([]token, error)`;
`out` is the output accumulated so far, `stack` the operator/paren
stack (top at the head). -/
def syGo : List Token → List Token → List Token → Except EvalErr (List Token)
  | [], out, stack =>
    match drainStack stack with
    | none => .error .mismatchedParens
    | some popped => .ok (out ++ popped)
  | t :: rest, out, stack =>
    match t.typ with
    | .tNumber => syGo rest (out ++ [t]) stack
    | .tOp => syGo rest (out ++ (popWhileGE t stack).1) (t :: (popWhileGE t stack).2)
    | .tLParen => syGo rest out (t :: stack)
    | .tRParen =>
      match popUntilLParen stack with
      | none => .error .mismatchedParens
      | some (popped, stack2) => syGo rest (out ++ popped) stack2

/-- `func shuntingYard(toks []token) ([]token, error)` of the source. -/
def shuntingYard (toks : List Token) : Except EvalErr (List Token) :=
  syGo toks [] []

/-- Model of `strconv.ParseFloat(text, 64)` on the token alphabet
(digits and dots): succeeds iff the text consists of digits and at most
one dot and has at least one digit; the value is exact. -/
def parseNum (s : String) : Option ℚ :=
  let cs := s.data
  if cs.all isNumChar ∧ cs.count '.' ≤ 1 ∧ cs.any Char.isDigit then
    let intDigits := cs.takeWhile (fun c => c != '.')
    let fracDigits := (cs.dropWhile (fun c => c != '.')).drop 1
    let iv : ℕ := intDigits.foldl (fun a c => 10 * a + (c.toNat - 48)) 0
    let fv : ℕ := fracDigits.foldl (fun a c => 10 * a + (c.toNat - 48)) 0
    some ((iv : ℚ) + (fv : ℚ) / ((10 : ℚ) ^ fracDigits.length))
  else none

/-- One operator application of `evalRPN` (`a` is the operand popped
second, `b` the operand popped first, i.e. the right-hand side).  The
source's `switch t.val` has no default case, so an unknown operator
symbol leaves `r` at Go's zero value `0`, which is then pushed. -/
def applyOp (op : String) (a b : ℚ) : Except EvalErr ℚ :=
  match op with
  | "+" => .ok (a + b)
  | "-" => .ok (a - b)
  | "*" => .ok (a * b)
  | "/" => if b = 0 then .error .divisionByZero else .ok (a / b)
  | _ => .ok 0

/-- The loop of `func evalRPN(toks []token) (float64, error)`; `st` is
the operand stack with its top at the head (the Go slice's last
element).  Tokens that are neither numbers nor operators are silently
skipped, exactly as in the source (no `tLParen`/`tRParen` case).  At
the end exactly one value must remain; the source's `IsInf`/`IsNaN`
check on it cannot fire in the exact-rational model. -/
def evalRPNGo : List Token → List ℚ → Except EvalErr ℚ
  | [], st =>
    match st with
    | [v] => .ok v
    | _ => .error .badExpression
  | t :: rest, st =>
    if t.typ = .tNumber then
      match parseNum t.val with
      | none => .error .badNumber
      | some v => evalRPNGo rest (v :: st)
    else if t.typ = .tOp then
      match st with
      | b :: a :: st2 =>
        match applyOp t.val a b with
        | .error e => .error e
        | .ok r => evalRPNGo rest (r :: st2)
      | _ => .error .badExpression
    else
      evalRPNGo rest st

/-- `func evalRPN(toks []token) (float64, error)` of the source. -/
def evalRPN (toks : List Token) : Except EvalErr ℚ :=
  evalRPNGo toks []

/-- `func evalExpr(s string) (float64, error)` of the source:
tokenize, shunting-yard, evaluate, short-circuiting on the first
failure. -/
def evalExpr (s : String) : Except EvalErr ℚ :=
  match tokenize s with
  | .error e => .error e
  | .ok toks =>
    match shuntingYard toks with
    | .error e => .error e
    | .ok rpn => evalRPN rpn

/-! ### General lemmas about the unary-minus rewrite -/

/-- Spec-side description of the unary-minus rewrite (claim C4, spec
§4.1): every token is emitted unchanged, and a synthetic `Number("0")`
is inserted immediately before each `Operator("-")` token that is the
first token overall or whose immediately preceding token is an
`Operator` or `LParen`.  Each input token is paired with its
predecessor by zipping with `none :: map some`. -/
def rewriteUnaryMinusSpec (toks : List Token) : List Token :=
  (toks.zip ((none : Option Token) :: toks.map some)).flatMap
    (fun pt =>
      if pt.1.typ = .tOp ∧ pt.1.val = "-" ∧ isUnaryCtx pt.2 = true then
        [⟨.tNumber, "0"⟩, pt.1]
      else [pt.1])

theorem rewriteGo_spec (l : List Token) : ∀ prev : Option Token,
    rewriteGo prev l =
      (l.zip (prev :: l.map some)).flatMap
        (fun pt =>
          if pt.1.typ = .tOp ∧ pt.1.val = "-" ∧ isUnaryCtx pt.2 = true then
            [⟨.tNumber, "0"⟩, pt.1]
          else [pt.1]) := by
  induction l with
  | nil => intro prev; rfl
  | cons t rest ih =>
    intro prev
    simp only [rewriteGo, List.map_cons, List.zip_cons_cons, List.flatMap_cons,
      ih (some t)]
    split <;> simp

theorem rewriteGo_id (l : List Token) : ∀ prev : Option Token,
    (∀ t ∈ l, t.val ≠ "-") → rewriteGo prev l = l := by
  induction l with
  | nil => intro _ _; rfl
  | cons t rest ih =>
    intro prev h
    have ht : t.val ≠ "-" := h t (List.mem_cons_self t rest)
    rw [rewriteGo, if_neg (fun hc => ht hc.2.1),
      ih (some t) (fun x hx => h x (List.mem_cons_of_mem t hx))]

/-! ### General lemmas about the shunting-yard parser -/

/-- The only error `syGo` (hence `shuntingYard`) ever returns is
`mismatchedParens`. -/
theorem syGo_error_eq : ∀ (toks : List Token), ∀ (out stack : List Token)
    (e : EvalErr), syGo toks out stack = .error e → e = .mismatchedParens := by
  intro toks
  induction toks with
  | nil =>
    intro out stack e h
    simp only [syGo] at h
    split at h
    · exact ((Except.error.inj h)).symm
    · exact absurd h (by simp)
  | cons t rest ih =>
    intro out stack e h
    rcases t with ⟨typ, val⟩
    cases typ with
    | tNumber => exact ih _ _ _ h
    | tOp => exact ih _ _ _ h
    | tLParen => exact ih _ _ _ h
    | tRParen =>
      simp only [syGo] at h
      split at h
      · exact ((Except.error.inj h)).symm
      · exact ih _ _ _ h

/-- Entries popped by `popWhileGE` are operators, and the remaining
stack keeps the operator/paren invariant. -/
theorem popWhileGE_inv (t : Token) : ∀ stack : List Token,
    (∀ x ∈ stack, x.typ = .tOp ∨ x.typ = .tLParen) →
    (∀ x ∈ (popWhileGE t stack).1, x.typ = .tOp) ∧
    (∀ x ∈ (popWhileGE t stack).2, x.typ = .tOp ∨ x.typ = .tLParen) := by
  intro stack
  induction stack with
  | nil => intro _; exact ⟨by simp [popWhileGE], by simp [popWhileGE]⟩
  | cons top rest ih =>
    intro hs
    have hrest : ∀ x ∈ rest, x.typ = .tOp ∨ x.typ = .tLParen :=
      fun x hx => hs x (List.mem_cons_of_mem top hx)
    by_cases hc : top.typ = .tOp ∧ prec top.val ≥ prec t.val
    · rw [popWhileGE, if_pos hc]
      refine ⟨fun x hx => ?_, (ih hrest).2⟩
      rcases List.mem_cons.mp hx with h1 | h2
      · exact h1 ▸ hc.1
      · exact (ih hrest).1 x h2
    · rw [popWhileGE, if_neg hc]
      exact ⟨by simp, hs⟩

/-- Entries popped by `popUntilLParen` are operators (given the stack
invariant), and the remaining stack keeps the invariant. -/
theorem popUntilLParen_inv : ∀ (stack popped stack2 : List Token),
    (∀ x ∈ stack, x.typ = .tOp ∨ x.typ = .tLParen) →
    popUntilLParen stack = some (popped, stack2) →
    (∀ x ∈ popped, x.typ = .tOp) ∧
    (∀ x ∈ stack2, x.typ = .tOp ∨ x.typ = .tLParen) := by
  intro stack
  induction stack with
  | nil => intro p s2 _ h; simp [popUntilLParen] at h
  | cons top rest ih =>
    intro p s2 hs h
    have hrest : ∀ x ∈ rest, x.typ = .tOp ∨ x.typ = .tLParen :=
      fun x hx => hs x (List.mem_cons_of_mem top hx)
    by_cases hc : top.typ = .tLParen
    · rw [popUntilLParen, if_pos hc] at h
      obtain ⟨hp, hs2⟩ := Prod.mk.injEq .. ▸ Option.some.inj h
      subst hp; subst hs2
      exact ⟨by simp, hrest⟩
    · rw [popUntilLParen, if_neg hc] at h
      split at h
      · exact absurd h (by simp)
      · rename_i popped' stack' heq
        obtain ⟨hp, hs2⟩ := Prod.mk.injEq .. ▸ Option.some.inj h
        subst hp; subst hs2
        have htop : top.typ = .tOp := by
          rcases hs top (List.mem_cons_self top rest) with h1 | h1
          · exact h1
          · exact absurd h1 hc
        obtain ⟨h1, h2⟩ := ih popped' stack' hrest heq
        refine ⟨fun x hx => ?_, h2⟩
        rcases List.mem_cons.mp hx with hx1 | hx2
        · exact hx1 ▸ htop
        · exact h1 x hx2

/-- Entries popped by the final drain are operators (given the stack
invariant). -/
theorem drainStack_inv : ∀ (stack popped : List Token),
    (∀ x ∈ stack, x.typ = .tOp ∨ x.typ = .tLParen) →
    drainStack stack = some popped →
    ∀ x ∈ popped, x.typ = .tOp := by
  intro stack
  induction stack with
  | nil =>
    intro p _ h
    simp only [drainStack, Option.some.injEq] at h
    subst h; simp
  | cons top rest ih =>
    intro p hs h
    have hrest : ∀ x ∈ rest, x.typ = .tOp ∨ x.typ = .tLParen :=
      fun x hx => hs x (List.mem_cons_of_mem top hx)
    by_cases hc : top.typ = .tLParen ∨ top.typ = .tRParen
    · rw [drainStack, if_pos hc] at h
      exact absurd h (by simp)
    · rw [drainStack, if_neg hc] at h
      cases hd : drainStack rest with
      | none => rw [hd] at h; exact absurd h (by simp)
      | some p' =>
        rw [hd] at h
        simp only [Option.map_some', Option.some.injEq] at h
        subst h
        have htop : top.typ = .tOp := by
          rcases hs top (List.mem_cons_self top rest) with h1 | h1
          · exact h1
          · exact absurd (Or.inl h1) hc
        intro x hx
        rcases List.mem_cons.mp hx with hx1 | hx2
        · exact hx1 ▸ htop
        · exact ih p' hrest hd x hx2

/-- Main invariant: on success, `syGo` emits only number and operator
tokens, provided the accumulated output does and the stack holds only
operators and left parens. -/
theorem syGo_ok_kinds : ∀ (toks : List Token), ∀ (out stack res : List Token),
    (∀ x ∈ out, x.typ = .tNumber ∨ x.typ = .tOp) →
    (∀ x ∈ stack, x.typ = .tOp ∨ x.typ = .tLParen) →
    syGo toks out stack = .ok res →
    ∀ x ∈ res, x.typ = .tNumber ∨ x.typ = .tOp := by
  intro toks
  induction toks with
  | nil =>
    intro out stack res hout hstack h
    simp only [syGo] at h
    split at h
    · exact absurd h (by simp)
    · rename_i popped heq
      have hpop := drainStack_inv stack popped hstack heq
      obtain rfl := Except.ok.inj h
      intro x hx
      rcases List.mem_append.mp hx with h1 | h2
      · exact hout x h1
      · exact Or.inr (hpop x h2)
  | cons t rest ih =>
    intro out stack res hout hstack h
    rcases t with ⟨typ, val⟩
    cases typ with
    | tNumber =>
      refine ih _ _ _ (fun x hx => ?_) hstack h
      rcases List.mem_append.mp hx with h1 | h2
      · exact hout x h1
      · simp at h2; subst h2; exact Or.inl rfl
    | tOp =>
      obtain ⟨h1, h2⟩ := popWhileGE_inv ⟨.tOp, val⟩ stack hstack
      refine ih _ _ _ (fun x hx => ?_) (fun x hx => ?_) h
      · rcases List.mem_append.mp hx with hx1 | hx2
        · exact hout x hx1
        · exact Or.inr (h1 x hx2)
      · rcases List.mem_cons.mp hx with hx1 | hx2
        · exact Or.inl (hx1 ▸ rfl)
        · exact h2 x hx2
    | tLParen =>
      refine ih _ _ _ hout (fun x hx => ?_) h
      rcases List.mem_cons.mp hx with hx1 | hx2
      · exact Or.inr (hx1 ▸ rfl)
      · exact hstack x hx2
    | tRParen =>
      simp only [syGo] at h
      split at h
      · exact absurd h (by simp)
      · rename_i popped stack2 heq
        obtain ⟨h1, h2⟩ := popUntilLParen_inv stack popped stack2 hstack heq
        refine ih _ _ _ (fun x hx => ?_) h2 h
        rcases List.mem_append.mp hx with hx1 | hx2
        · exact hout x hx1
        · exact Or.inr (h1 x hx2)

/-! ### Claim theorems -/

/-- Claim C1, counterexample: the InsufficientOperands failure
(evaluate("*3"), an operator with fewer than two stack values) and the
MalformedExpression failure (evaluate("2(3)"), two residual stack
values) produce EQUAL errors — both are the source's single
"bad expression" error — so they are NOT distinguishable by the
caller, contrary to the claim. -/
theorem c1_counterexample :
    evalExpr "*3" = evalExpr "2(3)" ∧
    evalExpr "*3" = .error .badExpression :=
  ⟨by with_unfolding_all rfl, by with_unfolding_all rfl⟩

/-- Claim C1 (amended): on failure, evaluate returns a structured
error, but the InsufficientOperands condition (an operator evaluated
with fewer than two stack values) and the MalformedExpression
condition (a residual stack of size ≠ 1 after evaluation) surface as
the SAME error — the source returns the identical string
"bad expression" from both sites — so the two failure kinds are not
distinguishable by the caller; e.g. evaluate("*3") and
evaluate("2(3)") return equal errors. -/
theorem c1_main :
    (∀ (t : Token) (rest : List Token), t.typ = .tOp →
        evalRPNGo (t :: rest) [] = .error .badExpression) ∧
    (∀ (t : Token) (rest : List Token) (v : ℚ), t.typ = .tOp →
        evalRPNGo (t :: rest) [v] = .error .badExpression) ∧
    (∀ (v w : ℚ) (st : List ℚ), evalRPNGo [] (v :: w :: st) = .error .badExpression) ∧
    evalRPNGo [] ([] : List ℚ) = .error .badExpression ∧
    evalExpr "*3" = .error .badExpression ∧
    evalExpr "2(3)" = .error .badExpression ∧
    evalExpr "*3" = evalExpr "2(3)" := by
  refine ⟨?_, ?_, ?_, by with_unfolding_all rfl, by with_unfolding_all rfl,
    by with_unfolding_all rfl, by with_unfolding_all rfl⟩
  · intro t rest h
    simp [evalRPNGo, h]
  · intro t rest v h
    simp [evalRPNGo, h]
  · intro v w st
    simp [evalRPNGo]

/-- Claim C1, witness for `c1_main`'s hypotheses at a concrete
operator token. -/
theorem c1_witness :
    (Token.mk .tOp "*").typ = .tOp ∧
    evalRPNGo [Token.mk .tOp "*"] [] = .error .badExpression :=
  ⟨rfl, c1_main.1 (Token.mk .tOp "*") [] rfl⟩

/-- Claim C2, counterexample: a tab is whitespace, yet it is NOT
stripped by tokenize (the source strips only the space character with
strings.ReplaceAll(s, " ", "")): evaluate("1\t+2") fails with
UnexpectedCharacter('\t') while the whitespace-free evaluate("1+2")
succeeds with 3 — so removing whitespace changes the result and a
whitespace character does trigger an UnexpectedCharacter failure. -/
theorem c2_counterexample :
    evalExpr "1\t+2" = .error (.badChar '\t') ∧
    evalExpr "1+2" = .ok 3 :=
  ⟨by with_unfolding_all rfl, by with_unfolding_all rfl⟩

/-- Claim C2 (amended): tokenize strips only the SPACE character
before scanning, so spaces are never significant (removing every
space from the input never changes the result of evaluate, and a
space never triggers an UnexpectedCharacter failure); other
whitespace such as tab is not stripped and fails with
UnexpectedCharacter. -/
theorem c2_main :
    (∀ s : String,
        evalExpr (String.mk (s.data.filter (fun c => c != ' '))) = evalExpr s) ∧
    evalExpr " 1 + 2 " = .ok 3 ∧
    tokenize "\t1" = .error (.badChar '\t') := by
  refine ⟨fun s => ?_, by with_unfolding_all rfl, by with_unfolding_all rfl⟩
  have key : tokenize (String.mk (s.data.filter (fun c => c != ' '))) = tokenize s := by
    simp only [tokenize]
    rw [List.filter_filter]
    simp only [Bool.and_self]
  simp only [evalExpr, key]

/-- Claim C3: only "-" receives the unary zero-insertion rewrite — a
token list with no "-" token is returned unchanged — so a leading "+"
is passed through as a binary operator with no left operand, and
evaluate("+3") fails with the source's "bad expression" error (the
collapsed InsufficientOperands / MalformedExpression error) instead of
silently evaluating to 3. -/
theorem c3_main :
    (∀ toks : List Token, (∀ t ∈ toks, t.val ≠ "-") →
        rewriteUnaryMinus toks = toks) ∧
    tokenize "+3" = .ok [⟨.tOp, "+"⟩, ⟨.tNumber, "3"⟩] ∧
    evalExpr "+3" = .error .badExpression := by
  exact ⟨fun toks h => rewriteGo_id toks none h,
    by with_unfolding_all rfl, by with_unfolding_all rfl⟩

/-- Claim C3, witness for `c3_main`'s hypothesis at the token list of
"+3". -/
theorem c3_witness :
    (∀ t ∈ [Token.mk .tOp "+", Token.mk .tNumber "3"], t.val ≠ "-") ∧
    rewriteUnaryMinus [Token.mk .tOp "+", Token.mk .tNumber "3"]
      = [Token.mk .tOp "+", Token.mk .tNumber "3"] :=
  ⟨by decide, c3_main.1 [Token.mk .tOp "+", Token.mk .tNumber "3"] (by decide)⟩

/-- Claim C4: the rewrite mechanism is exactly as claimed — a
synthetic Number("0") is inserted immediately before every
Operator("-") that is first or preceded by an Operator or LParen, and
no other token is changed (`rewriteUnaryMinus` equals the spec-side
`rewriteUnaryMinusSpec`) — and evaluate("-5+2") = -3; BUT the claimed
consequence evaluate("3*-2") = -6 is false: the inserted 0 is not
parenthesized, "3*-2" becomes the token sequence of "3*0-2", and the
code evaluates it to -2. -/
theorem c4_main :
    (∀ toks : List Token, rewriteUnaryMinus toks = rewriteUnaryMinusSpec toks) ∧
    evalExpr "-5+2" = .ok (-3) ∧
    evalExpr "3*-2" = .ok (-2) :=
  ⟨fun toks => rewriteGo_spec toks none,
   by with_unfolding_all rfl, by with_unfolding_all rfl⟩

/-- Claim C5: `prec` is the fixed table +:1 -:1 *:2 /:2; the parser
pops to the output while the stack top is an operator with precedence
≥ the incoming operator's (so equal precedence pops: strict left
associativity), and does not pop when the incoming operator binds
strictly tighter; consequently evaluate("2+3*4") = 14,
evaluate("(2+3)*4") = 20 and evaluate("8-3-2") = 3. -/
theorem c5_main :
    (∀ (x y z s1 s2 : String), prec s1 ≥ prec s2 →
        shuntingYard [⟨.tNumber, x⟩, ⟨.tOp, s1⟩, ⟨.tNumber, y⟩,
            ⟨.tOp, s2⟩, ⟨.tNumber, z⟩] =
          .ok [⟨.tNumber, x⟩, ⟨.tNumber, y⟩, ⟨.tOp, s1⟩,
            ⟨.tNumber, z⟩, ⟨.tOp, s2⟩]) ∧
    (∀ (x y z s1 s2 : String), prec s1 < prec s2 →
        shuntingYard [⟨.tNumber, x⟩, ⟨.tOp, s1⟩, ⟨.tNumber, y⟩,
            ⟨.tOp, s2⟩, ⟨.tNumber, z⟩] =
          .ok [⟨.tNumber, x⟩, ⟨.tNumber, y⟩, ⟨.tNumber, z⟩,
            ⟨.tOp, s2⟩, ⟨.tOp, s1⟩]) ∧
    prec "+" = 1 ∧ prec "-" = 1 ∧ prec "*" = 2 ∧ prec "/" = 2 ∧
    evalExpr "2+3*4" = .ok 14 ∧
    evalExpr "(2+3)*4" = .ok 20 ∧
    evalExpr "8-3-2" = .ok 3 := by
  refine ⟨?_, ?_, rfl, rfl, rfl, rfl, by with_unfolding_all rfl,
    by with_unfolding_all rfl, by with_unfolding_all rfl⟩
  · intro x y z s1 s2 h
    simp [shuntingYard, syGo, popWhileGE, drainStack, h]
  · intro x y z s1 s2 h
    have hle : ¬(prec s2 ≤ prec s1) := not_le.mpr h
    simp [shuntingYard, syGo, popWhileGE, drainStack, hle]

/-- Claim C5, witness for `c5_main`'s hypotheses at the tokens of
"8-3-2" (equal precedence, left-associative pop) and of "2+3*4"
(tighter incoming operator, no pop). -/
theorem c5_witness :
    prec "-" ≥ prec "-" ∧ prec "+" < prec "*" ∧
    shuntingYard [⟨.tNumber, "8"⟩, ⟨.tOp, "-"⟩, ⟨.tNumber, "3"⟩,
        ⟨.tOp, "-"⟩, ⟨.tNumber, "2"⟩] =
      .ok [⟨.tNumber, "8"⟩, ⟨.tNumber, "3"⟩, ⟨.tOp, "-"⟩,
        ⟨.tNumber, "2"⟩, ⟨.tOp, "-"⟩] ∧
    shuntingYard [⟨.tNumber, "2"⟩, ⟨.tOp, "+"⟩, ⟨.tNumber, "3"⟩,
        ⟨.tOp, "*"⟩, ⟨.tNumber, "4"⟩] =
      .ok [⟨.tNumber, "2"⟩, ⟨.tNumber, "3"⟩, ⟨.tNumber, "4"⟩,
        ⟨.tOp, "*"⟩, ⟨.tOp, "+"⟩] :=
  ⟨le_refl _, by decide,
   c5_main.1 "8" "3" "2" "-" "-" (le_refl _),
   c5_main.2.1 "2" "3" "4" "+" "*" (by decide)⟩

/-- Claim C6: MismatchedParentheses is the only failure shuntingYard
can produce — it arises exactly from the two sites of the claim (a
RParen emptying the stack without finding an LParen, or a paren marker
left on the stack after the input is exhausted), which are the only
error returns of the function — and both evaluate("(1+2") and
evaluate("1+2)") fail with MismatchedParentheses. -/
theorem c6_main :
    (∀ (toks : List Token) (e : EvalErr),
        shuntingYard toks = .error e → e = .mismatchedParens) ∧
    evalExpr "(1+2" = .error .mismatchedParens ∧
    evalExpr "1+2)" = .error .mismatchedParens :=
  ⟨fun toks e h => syGo_error_eq toks [] [] e h,
   by with_unfolding_all rfl, by with_unfolding_all rfl⟩

/-- Claim C6, witness for `c6_main`'s hypothesis at a concrete
unmatched right paren. -/
theorem c6_witness :
    shuntingYard [Token.mk .tRParen ")"] = .error .mismatchedParens ∧
    EvalErr.mismatchedParens = .mismatchedParens :=
  ⟨by with_unfolding_all rfl,
   c6_main.1 [Token.mk .tRParen ")"] .mismatchedParens (by with_unfolding_all rfl)⟩

/-- Claim C7: the tokenizer performs no digit-grouping validation —
"1.2.3" is tokenized as the single Number token "1.2.3" — and the
failure surfaces only in the evaluator: a Number token whose text does
not parse as a numeric value (here: multiple decimal points) makes
evalRPN fail with the InvalidNumber error ("bad number"), so
evaluate("1.2.3") fails with InvalidNumber. -/
theorem c7_main :
    tokenize "1.2.3" = .ok [⟨.tNumber, "1.2.3"⟩] ∧
    parseNum "1.2.3" = none ∧
    evalExpr "1.2.3" = .error .badNumber ∧
    (∀ (v : String) (rest : List Token) (st : List ℚ), parseNum v = none →
        evalRPNGo (⟨.tNumber, v⟩ :: rest) st = .error .badNumber) := by
  refine ⟨by with_unfolding_all rfl, by with_unfolding_all rfl,
    by with_unfolding_all rfl, ?_⟩
  intro v rest st h
  simp [evalRPNGo, h]

/-- Claim C7, witness for `c7_main`'s hypothesis at the malformed
number "1.2.3". -/
theorem c7_witness :
    parseNum "1.2.3" = none ∧
    evalRPNGo [Token.mk .tNumber "1.2.3"] [] = .error .badNumber :=
  ⟨by with_unfolding_all rfl,
   c7_main.2.2.2 "1.2.3" [] [] (by with_unfolding_all rfl)⟩

/-- Claim C8: whenever a "/" operator is evaluated with right-hand
operand (the stack top, pushed later) exactly zero, evaluation fails
immediately with DivisionByZero — regardless of the left operand, the
rest of the input and the rest of the stack, and with no value pushed
since the function returns the error — and evaluate("1/0") fails with
DivisionByZero.  The source's test is the exact comparison b == 0. -/
theorem c8_main :
    (∀ (rest : List Token) (a : ℚ) (st : List ℚ),
        evalRPNGo (⟨.tOp, "/"⟩ :: rest) (0 :: a :: st) = .error .divisionByZero) ∧
    evalExpr "1/0" = .error .divisionByZero := by
  refine ⟨?_, by with_unfolding_all rfl⟩
  intro rest a st
  simp [evalRPNGo, applyOp]

/-- Claim C9: whenever shuntingYard succeeds, every token of its
output is a Number or an Operator — never an LParen or RParen — so the
evaluator's two token-kind cases are exhaustive on pipeline outputs
and its silent skip of other kinds is unreachable there. -/
theorem c9_main (toks out : List Token) (h : shuntingYard toks = .ok out) :
    ∀ t ∈ out, t.typ = .tNumber ∨ t.typ = .tOp :=
  syGo_ok_kinds toks [] [] out (by simp) (by simp) h

/-- Claim C9, witness for `c9_main` at a concrete one-token input. -/
theorem c9_witness :
    shuntingYard [Token.mk .tNumber "1"] = .ok [Token.mk .tNumber "1"] ∧
    ((Token.mk .tNumber "1").typ = .tNumber ∨ (Token.mk .tNumber "1").typ = .tOp) :=
  ⟨by with_unfolding_all rfl,
   c9_main [Token.mk .tNumber "1"] [Token.mk .tNumber "1"]
     (by with_unfolding_all rfl) (Token.mk .tNumber "1") (by simp)⟩

/-- Claim C10: evaluate("()") fails with the MalformedExpression error
("bad expression"), not with MismatchedParentheses: the balanced empty
parens pass tokenization, shuntingYard accepts them and yields the
empty postfix sequence, and the rejection happens only in evalRPN's
final residual-stack check, which sees zero values. -/
theorem c10_main :
    tokenize "()" = .ok [⟨.tLParen, "("⟩, ⟨.tRParen, ")"⟩] ∧
    shuntingYard [⟨.tLParen, "("⟩, ⟨.tRParen, ")"⟩] = .ok [] ∧
    evalRPN [] = .error .badExpression ∧
    evalExpr "()" = .error .badExpression :=
  ⟨by with_unfolding_all rfl, by with_unfolding_all rfl,
   by with_unfolding_all rfl, by with_unfolding_all rfl⟩

end GoCalc
